import Mathlib

/-!
Verification development for the `use-pip` library: a shallow embedding of
its pure utilities (minimal-ratio calculator, font cache, Satori renderer
pipeline) and of the stateful PiP session hook (`usePinP`), together with
theorems settling the specified properties.

Modelling conventions:
  - A finite JS `number` is modelled by its exact rational value, given as
    an integer numerator and a natural-number denominator (`fin num den`,
    value `num / den`); every value a JS engine prints in plain or
    exponential decimal notation is such a rational whose reduced
    denominator divides a power of ten, and theorems that depend on this
    carry it as an explicit hypothesis.
  - JS `Math.round` (round to nearest, halves towards `+Infinity`) on the
    rational `a / b` (with `b > 0`) is the integer `(2*a + b) / (2*b)`
    using floor division; `jsRoundND` embeds it this way so that results
    are kernel-computable.
  - JS `while` loops are embedded with an explicit fuel argument large
    enough that the fuel never runs out on the loop's actual domain.
  - Effectful operations (DOM, platform PiP, object URLs) are embedded as
    pure functions that also return the list of external calls they issue,
    so ordering and "no platform call" claims are statements about traces.
-/

namespace UsePip

/-! ## §1 Minimal-ratio calculator — `computeMinimalVideoSize` (src/utils.ts) -/

/-- A JavaScript `number` as observed by `computeMinimalVideoSize`:
`NaN`, `Infinity`, `-Infinity`, or a finite value `num / den`. -/
inductive JSNum where
  | nan : JSNum
  | posInf : JSNum
  | negInf : JSNum
  | fin : ℤ → ℕ → JSNum
deriving DecidableEq

/-- `Number.isFinite`. -/
def jsIsFinite : JSNum → Bool
  | .fin _ _ => true
  | _ => false

/-- The JS comparison `x <= 0` (false on `NaN`, true on `-Infinity`;
on a finite `num / den` with `den > 0` it is the sign of `num`). -/
def jsLe0 : JSNum → Bool
  | .nan => false
  | .posInf => false
  | .negInf => true
  | .fin n _ => n ≤ 0

/-- JS `Math.round` of the rational `a / b` (requires `b > 0`):
`⌊a/b + 1/2⌋ = (2a + b) / (2b)` with floor division. -/
def jsRoundND (a : ℤ) (b : ℕ) : ℤ := (2 * a + b) / (2 * (b : ℤ))

/-- Fuelled multiplicity of `p` in `n` (how many times `p` divides `n`). -/
def pvalAux : ℕ → ℕ → ℕ → ℕ
  | 0, _, _ => 0
  | fuel + 1, p, n => if 2 ≤ p ∧ p ∣ n ∧ n ≠ 0 then 1 + pvalAux fuel p (n / p) else 0

/-- Multiplicity of `p` in `n` (fuel `n` always suffices). -/
def pval (p n : ℕ) : ℕ := pvalAux n p n

/-- One step of the source's Euclidean `while (b !== 0)` loop, with fuel. -/
def gcdLoopAux : ℕ → ℕ → ℕ → ℕ
  | 0, a, _ => a
  | fuel + 1, a, b => if b = 0 then a else gcdLoopAux fuel b (a % b)

/-- The source's Euclidean loop: starting from `(a, b)` it iterates
`(a, b) := (b, a % b)` until `b = 0` and returns `a`.  Fuel `b + 1`
always suffices because the second component strictly decreases. -/
def gcdLoop (a b : ℕ) : ℕ := gcdLoopAux (b + 1) a b

/-- The denominator of `n / d` in lowest terms. -/
def reducedDen (n : ℤ) (d : ℕ) : ℕ :=
  let g := gcdLoop n.natAbs d
  if g = 0 then d else d / g

/-- Embedding of the `decimalPlaces` helper of `computeMinimalVideoSize`:
the number of digits after the decimal point in the value's shortest
decimal representation, i.e. the least `k` with `(n/d) * 10^k` integral.
For a reduced denominator `2^a * 5^b` this is `max a b`; the source's two
string branches (plain and exponential notation) both compute this count,
so the embedding is notation-independent. -/
def decimalPlacesND (n : ℤ) (d : ℕ) : ℕ :=
  max (pval 2 (reducedDen n d)) (pval 5 (reducedDen n d))

/-- Core of `computeMinimalVideoSize` on finite positive inputs `wn/wd`,
`hn/hd`: scale both values to integers by `10^max(decimalPlaces w,
decimalPlaces h)`, reduce by the Euclidean gcd of the rounded magnitudes
(guarding a zero divisor with 1), and round the quotients. -/
def cmvsCore (wn : ℤ) (wd : ℕ) (hn : ℤ) (hd : ℕ) : ℤ × ℤ :=
  let m : ℕ := 10 ^ max (decimalPlacesND wn wd) (decimalPlacesND hn hd)
  let a : ℕ := (jsRoundND (wn * m) wd).natAbs
  let b : ℕ := (jsRoundND (hn * m) hd).natAbs
  let g : ℕ := gcdLoop a b
  let divisor : ℕ := if g = 0 then 1 else g
  (jsRoundND (wn * m) (wd * divisor), jsRoundND (hn * m) (hd * divisor))

/-- Embedding of `computeMinimalVideoSize` (src/utils.ts): guard against
non-finite or non-positive inputs, otherwise reduce to the minimal integer
ratio. -/
def computeMinimalVideoSize (width height : JSNum) : ℤ × ℤ :=
  if !jsIsFinite width || !jsIsFinite height || jsLe0 width || jsLe0 height then
    (1, 1)
  else
    match width, height with
    | .fin wn wd, .fin hn hd => cmvsCore wn wd hn hd
    | _, _ => (1, 1)

/-! ## §2 Font resolution cache (src/fonts.ts) -/

/-- A resolved font (the `Font` shape of src/fonts.ts); the binary blob is
abstracted by an identifier so that identity of cached values is provable. -/
structure Font where
  name : String
  data : ℕ
  weight : ℕ
  style : String
deriving DecidableEq

/-- The module-level `Map<string, Font>` as a partial map on keys. -/
def FontCache := String → Option Font

/-- The cache at module load: empty. -/
def emptyFontCache : FontCache := fun _ => none

/-- `setCachedFonts`: `fontCache.set(key, fonts)` — unconditional overwrite. -/
def setCachedFonts (cache : FontCache) (key : String) (fonts : Font) : FontCache :=
  fun k => if k = key then some fonts else cache k

/-- `getCachedFonts`: `fontCache.get(key) ?? null` — `none` is the absent
sentinel (`null`). -/
def getCachedFonts (cache : FontCache) (key : String) : Option Font :=
  cache key

/-- `clearFontCache`: the source branches on JS truthiness, `if (key)` —
false both when no key is given and when the key is the empty string — so
with a truthy (non-empty) key it is `fontCache.delete(key)`, and otherwise
(no key, or the falsy `''` key) it is `fontCache.clear()`.  Both paths are
total, so clearing a missing key or an empty cache never fails. -/
def clearFontCache (cache : FontCache) (key : Option String) : FontCache :=
  match key with
  | some k =>
    if k = "" then fun _ => none
    else fun k' => if k' = k then none else cache k'
  | none => fun _ => none

/-! ## §3 Scene-to-surface renderer (src/satoriRenderer.ts)

Markup strings are embedded as lists of characters.  The regex
`/(<svg\b[^>]*\b)width="(\d+(?:\.\d+)?)"/` of `scaleSvgDimensions` is
embedded as an executable scanner with the same semantics: leftmost match
start, greedy `[^>]*` (so the rightmost admissible attribute occurrence
inside the first unclosed span after `<svg` wins), word boundaries on both
sides of the consumed span. -/

/-- Markup (an SVG string) as a character list. -/
abbrev Markup := List Char

/-- JS regex word character (for `\b` boundaries): `[A-Za-z0-9_]`. -/
def isWordChar (c : Char) : Bool := c.isAlphanum || c = '_'

/-- `startsWithL pat l`: `pat` is an initial segment of `l`. -/
def startsWithL : List Char → List Char → Bool
  | [], _ => true
  | _ :: _, [] => false
  | p :: ps, c :: cs => p = c && startsWithL ps cs

/-- `containsSub pat l`: `pat` occurs contiguously somewhere in `l`. -/
def containsSub (pat : List Char) : List Char → Bool
  | [] => pat.isEmpty
  | c :: cs => startsWithL pat (c :: cs) || containsSub pat cs

/-- Digits of a number token to its natural value (JS `Number` on `\d+`). -/
def digitsToNat (ds : List Char) : ℕ :=
  ds.foldl (fun acc c => 10 * acc + (c.toNat - '0'.toNat)) 0

/-- Match the regex tail `(\d+(?:\.\d+)?)"` at the head of `l`: greedy
digits, an optional fraction, then the closing quote.  Returns the number's
characters and the remainder after the quote. -/
def parseNumAfter (l : List Char) : Option (List Char × List Char) :=
  let ds := l.takeWhile fun c => c.isDigit
  if ds.isEmpty then none
  else
    match l.drop ds.length with
    | '.' :: r2 =>
      let fs := r2.takeWhile fun c => c.isDigit
      if fs.isEmpty then none
      else
        match r2.drop fs.length with
        | '"' :: rest => some (ds ++ '.' :: fs, rest)
        | _ => none
    | '"' :: rest => some (ds, rest)
    | _ => none

/-- Search the `[^>]*` span for the attribute literal.  `prev` is the last
character already consumed (for the `\b` before the attribute name).  Greedy
`[^>]*` prefers the rightmost admissible occurrence, so deeper matches are
tried first; the scan stops at `>`.  Returns (span consumed before the
attribute, number characters, remainder after the closing quote). -/
def spanSearch (attr : List Char) (prev : Char) : List Char → Option (List Char × List Char × List Char)
  | [] => none
  | c :: cs =>
    if c = '>' then none
    else
      match spanSearch attr c cs with
      | some (sp, num, rest) => some (c :: sp, num, rest)
      | none =>
        if !isWordChar prev && startsWithL attr (c :: cs) then
          match parseNumAfter ((c :: cs).drop attr.length) with
          | some (num, rest) => some ([], num, rest)
          | none => none
        else none

/-- The literal `<svg` opening the regex. -/
def svgTag : List Char := ['<', 's', 'v', 'g']

/-- Try the full pattern `(<svg\b[^>]*\b)attr(\d+(?:\.\d+)?)"` at the very
start of `l`: the `<svg` literal, its trailing `\b` (next character not a
word character), then the span search. -/
def svgTryAt (attr : List Char) (l : List Char) : Option (List Char × List Char × List Char) :=
  if startsWithL svgTag l then
    match l.drop 4 with
    | [] => none
    | d :: ds =>
      if !isWordChar d then
        match spanSearch attr 'g' (d :: ds) with
        | some (sp, num, rest) => some (svgTag ++ sp, num, rest)
        | none => none
      else none
  else none

/-- Leftmost match of `(<svg\b[^>]*\b)attr(\d+(?:\.\d+)?)"` in `l`.
Returns (everything before the attribute literal — group 1 plus the text
before the match, number characters, remainder after the quote). -/
def svgScan (attr : List Char) : List Char → Option (List Char × List Char × List Char)
  | [] => none
  | c :: cs =>
    match svgTryAt attr (c :: cs) with
    | some r => some r
    | none => (svgScan attr cs).map fun (a, num, rest) => (c :: a, num, rest)

/-- A device-pixel-ratio scale factor as an exact rational `num / den`
(`dpr = 1` is `(1, 1)`, `dpr = 2` is `(2, 1)`). -/
abbrev Scale := ℕ × ℕ

/-- The replacement callback: `Math.round(Number(w) * scale)` printed back
in decimal (`w` is `\d+(?:\.\d+)?`). -/
def scaleNum (scale : Scale) (num : List Char) : List Char :=
  let ip := num.takeWhile fun c => c ≠ '.'
  let fp := num.drop (ip.length + 1)
  let v := digitsToNat (ip ++ fp)
  Nat.toDigits 10 (jsRoundND ((v * scale.1 : ℕ) : ℤ) (10 ^ fp.length * scale.2)).toNat

/-- One `.replace(regex, callback)` application for the given attribute
literal: no match leaves the markup unchanged. -/
def replaceAttr (attr : List Char) (scale : Scale) (l : Markup) : Markup :=
  match svgScan attr l with
  | none => l
  | some (a, num, rest) => a ++ attr ++ scaleNum scale num ++ '"' :: rest

/-- The literal `width="`. -/
def widthAttr : List Char := ['w', 'i', 'd', 't', 'h', '=', '"']

/-- The literal `height="`. -/
def heightAttr : List Char := ['h', 'e', 'i', 'g', 'h', 't', '=', '"']

/-- Embedding of `scaleSvgDimensions` (src/satoriRenderer.ts): identity at
scale 1, otherwise rescale the outer `width="..."` then `height="..."`
attributes of the first `<svg` tag, leaving everything else (in particular
the `viewBox`) untouched. -/
def scaleSvgDimensions (svg : Markup) (scale : Scale) : Markup :=
  if scale.1 = scale.2 then svg
  else replaceAttr heightAttr scale (replaceAttr widthAttr scale svg)

/-- Observable outcome of one `renderToCanvas` call: the canvas backing
dimensions it sets, the dimensions it hands to the rasterizer, and the
markup handed to decoding. -/
structure RenderTrace where
  canvasWidth : ℤ
  canvasHeight : ℤ
  satoriWidth : ℕ
  satoriHeight : ℕ
  decodedMarkup : Markup
deriving DecidableEq

/-- Embedding of `renderToCanvas` (src/satoriRenderer.ts): set the canvas
pixel size to `round(logical * dpr)`, rasterize at logical dimensions via
the external `satoriFn`, rescale the resulting markup by `dpr`, decode and
draw it.  `satoriFn` is the external rasterizer boundary (a black box). -/
def renderToCanvas (satoriFn : ℕ → ℕ → Markup) (width height : ℕ) (dpr : Scale) : RenderTrace :=
  { canvasWidth := jsRoundND ((width * dpr.1 : ℕ) : ℤ) dpr.2
    canvasHeight := jsRoundND ((height * dpr.1 : ℕ) : ℤ) dpr.2
    satoriWidth := width
    satoriHeight := height
    decodedMarkup := scaleSvgDimensions (satoriFn width height) dpr }

/-- External resource events issued by `svgToImage`. -/
inductive UrlEvent where
  | createURL (u : ℕ)
  | setSrc (u : ℕ)
  | decodeImage
  | revokeURL (u : ℕ)
deriving DecidableEq

/-- Embedding of `svgToImage` (src/satoriRenderer.ts): allocate one object
URL `u` for the markup blob, assign it as the image source, await
`img.decode()`, and — in a `finally` block, hence on both the success and
the failure path — revoke that same URL.  On success the decoded image
(whose source is `u`) is returned; a decode failure propagates after the
revoke. -/
def svgToImage (u : ℕ) (decodeResult : Except String Unit) : List UrlEvent × Except String ℕ :=
  match decodeResult with
  | .ok _ => ([.createURL u, .setSrc u, .decodeImage, .revokeURL u], .ok u)
  | .error e => ([.createURL u, .setSrc u, .decodeImage, .revokeURL u], .error e)

/-! ## §4 PiP session controller — the `usePinP` hook (src/hooks.ts)

The hook's operations are embedded as pure functions over explicit state
that also return the list of platform calls they issue (their trace), so
that ordering claims ("no platform call", "no awaited step before the
platform request") are statements about traces.  Suspension points
(`await`) are explicit trace entries. -/

/-- Platform-level calls and suspension points, in issue order. -/
inductive PEvent where
  | playCall
  | pipRequestCall
  | exitPipCall
  | awaitPoint
deriving DecidableEq

/-- The errors `enter()` can fail with before touching the platform. -/
inductive EnterError where
  | unsupported
  | initError
deriving DecidableEq

/-- Environment of one `enter()` invocation: the session flags, whether the
internal elements have been constructed, and how the platform responds to
the two calls `enter()` issues. -/
structure EnterEnv where
  isSupported : Bool
  videoInit : Bool
  canvasInit : Bool
  playResult : Except String Unit
  pipResult : Except String Unit

/-- Observable outcome of one `enter()` call: the settlement of the promise
`enter()` itself returns to its caller, the trace of platform calls issued
in the invocation's synchronous turn, the messages logged via
`console.error`, and the rejections left on detached (un-awaited) promise
chains. -/
structure EnterOutcome where
  returned : Except EnterError Unit
  trace : List PEvent
  logged : List String
  detachedRejections : List String

/-- Embedding of `enter` (src/hooks.ts): throw `UnsupportedError` if the
platform lacks PiP; throw `InitError` if the video or canvas element is not
yet constructed; otherwise call `video.play()` and
`video.requestPictureInPicture()` back to back with no `await` in between.
Each call gets a `.catch` handler attached to its own (un-awaited) promise
chain: the play handler only logs, the PiP handler logs and rethrows —
into the detached chain, not into `enter()`'s returned promise, which
settles successfully. -/
def enter (env : EnterEnv) : EnterOutcome :=
  if !env.isSupported then
    { returned := .error .unsupported, trace := [], logged := [], detachedRejections := [] }
  else if !(env.videoInit && env.canvasInit) then
    { returned := .error .initError, trace := [], logged := [], detachedRejections := [] }
  else
    let playLog :=
      match env.playResult with
      | .ok _ => []
      | .error e => ["Failed to play video: " ++ e]
    match env.pipResult with
    | .ok _ =>
      { returned := .ok (), trace := [.playCall, .pipRequestCall]
        logged := playLog, detachedRejections := [] }
    | .error e =>
      { returned := .ok (), trace := [.playCall, .pipRequestCall]
        logged := playLog ++ ["Failed to enter PiP: " ++ e], detachedRejections := [e] }

/-- State of the hidden relay video element that `exit()` touches. -/
structure VideoSt where
  paused : Bool
  currentTime : ℚ
deriving DecidableEq

/-- Embedding of `exit` (src/hooks.ts): if a PiP window is shown
(`document.pictureInPictureElement`), await the platform's
`exitPictureInPicture()` — a rejection there propagates out of `exit()` and
skips the rest of the body; afterwards, if the relay element exists, pause
it and reset `currentTime` to 0.  Returns (settlement of `exit()`'s
promise, final video state, platform calls issued). -/
def exitPiP (video : Option VideoSt) (pipShown : Bool) (platformExit : Except String Unit) :
    Except String Unit × Option VideoSt × List PEvent :=
  if pipShown then
    match platformExit with
    | .error e => (.error e, video, [.exitPipCall])
    | .ok _ => (.ok (), video.map fun _ => ⟨true, 0⟩, [.exitPipCall])
  else
    (.ok (), video.map fun _ => ⟨true, 0⟩, [])

/-- State touched by the audio-destination effect: the relay element's
audio flags and the capture stream's audio track list (track identifiers). -/
structure AudioState where
  muted : Bool
  volume : ℚ
  audioTracks : List ℕ
deriving DecidableEq

/-- Embedding of the audio-destination effect of `usePinP` (src/hooks.ts):
on every change of `audioDestination`, if the capture stream does not exist
the effect returns early; otherwise it unmutes the relay element (when it
exists), removes every audio track currently on the capture stream, and
then adds each audio track of the new destination's stream (if one is
provided).  `dest` is the new destination's audio track list, `none` when
no destination is provided. -/
def audioEffect (streamPresent videoPresent : Bool) (st : AudioState) (dest : Option (List ℕ)) :
    AudioState :=
  if !streamPresent then st
  else
    let st1 := if videoPresent then { st with muted := false, volume := 1 } else st
    let st2 := { st1 with audioTracks := [] }
    match dest with
    | some tracks => { st2 with audioTracks := tracks }
    | none => st2

/-- Track operations issued by the audio-destination effect, in order. -/
inductive AEvent where
  | removeTrack (t : ℕ)
  | addTrack (t : ℕ)
deriving DecidableEq

/-- The track operations the audio-destination effect issues: first one
`removeTrack` per currently attached audio track (the removal loop), then
one `addTrack` per track of the new destination (the attach loop). -/
def audioEffectEvents (streamPresent : Bool) (st : AudioState) (dest : Option (List ℕ)) :
    List AEvent :=
  if !streamPresent then []
  else st.audioTracks.map .removeTrack ++ (dest.getD []).map .addTrack

/-! ### The render effect and its `cancelled` flag

Each run of the render effect (triggered by a change of `element`, `width`,
`height`, `fonts` or the resolver) closes over its own `cancelled` flag,
initialised `false`; the effect body synchronously invokes the async
`render()` function, whose only cancellation check `if (cancelled) return`
executes synchronously before the first `await`; the effect's cleanup
(run when the inputs change again) sets the flag.  After the check,
`render()` suspends awaiting font resolution, then awaits `renderToCanvas`
— whose completion paints the canvas — with no further cancellation check.
The machine below embeds exactly those steps; a scheduler (a list of
events) drives the interleaving of pending cycles. -/

/-- Where a render cycle currently is. -/
inductive RPhase where
  | awaitingFonts
  | awaitingRender
  | painted
  | halted
deriving DecidableEq

/-- One render cycle: its generation number, phase, and `cancelled` flag. -/
structure Cycle where
  id : ℕ
  phase : RPhase
  cancelled : Bool
deriving DecidableEq

/-- The render-effect subsystem: pending cycles, the canvas content
(the id of the cycle that last painted it), the history of paints, and the
next generation number. -/
structure RenderSys where
  cycles : List Cycle
  surface : Option ℕ
  paints : List ℕ
  nextId : ℕ
deriving DecidableEq

/-- Scheduler events: an input change (cleanup of the pending effect, then
a new effect run), the resolution of cycle `i`'s font promise, and the
completion of cycle `i`'s `renderToCanvas` chain. -/
inductive SchedEvent where
  | inputsChange
  | fontsResolved (i : ℕ)
  | renderFinished (i : ℕ)
deriving DecidableEq

/-- Set the `cancelled` flag of cycle `i` (the effect cleanup). -/
def markCancelled (i : ℕ) (cs : List Cycle) : List Cycle :=
  cs.map fun c => if c.id = i then { c with cancelled := true } else c

/-- An input change: run the previous effect's cleanup (`cancelled = true`
for the latest cycle), then the new effect body, which synchronously starts
`render()`: the new cycle's only `cancelled` check runs here — it was just
initialised `false`, so the cycle proceeds to await font resolution. -/
def stepInputsChange (s : RenderSys) : RenderSys :=
  let cs := if s.nextId = 0 then s.cycles else markCancelled (s.nextId - 1) s.cycles
  let freshCancelled := false
  let fresh : Cycle :=
    { id := s.nextId
      phase := if freshCancelled then .halted else .awaitingFonts
      cancelled := freshCancelled }
  { s with cycles := cs ++ [fresh], nextId := s.nextId + 1 }

/-- Cycle `i`'s font promise resolves: `render()` resumes past its first
`await` and immediately awaits `renderToCanvas` (no cancellation check on
resumption — faithful to the source). -/
def stepFontsResolved (i : ℕ) (s : RenderSys) : RenderSys :=
  { s with
    cycles := s.cycles.map fun c =>
      if c.id = i && c.phase == .awaitingFonts then { c with phase := .awaitingRender } else c }

/-- Cycle `i`'s `renderToCanvas` chain completes: the draw inside it paints
the canvas with cycle `i`'s output (no cancellation check on resumption —
faithful to the source). -/
def stepRenderFinished (i : ℕ) (s : RenderSys) : RenderSys :=
  if s.cycles.any fun c => c.id = i && c.phase == .awaitingRender then
    { s with
      cycles := s.cycles.map fun c =>
        if c.id = i && c.phase == .awaitingRender then { c with phase := .painted } else c
      surface := some i
      paints := s.paints ++ [i] }
  else s

/-- One scheduler step. -/
def stepRender (s : RenderSys) : SchedEvent → RenderSys
  | .inputsChange => stepInputsChange s
  | .fontsResolved i => stepFontsResolved i s
  | .renderFinished i => stepRenderFinished i s

/-- Run a schedule from the initial (mount) state. -/
def runRender (evs : List SchedEvent) : RenderSys :=
  evs.foldl stepRender ⟨[], none, [], 0⟩

/-- The schedule exhibiting a stale repaint: cycle 0 starts and suspends on
font resolution; the inputs change (cycle 0's flag is set, cycle 1 starts);
cycle 1 resolves and paints; then cycle 0's font promise resolves and its
render chain completes. -/
def staleSchedule : List SchedEvent :=
  [.inputsChange, .inputsChange, .fontsResolved 1, .renderFinished 1,
   .fontsResolved 0, .renderFinished 0]

/-! ## §5 Helper lemmas -/

theorem gcdLoopAux_eq_gcd : ∀ (fuel a b : ℕ), b < fuel → gcdLoopAux fuel a b = Nat.gcd a b := by
  intro fuel
  induction fuel with
  | zero => intro a b h; omega
  | succ f ih =>
    intro a b h
    by_cases hb : b = 0
    · simp [gcdLoopAux, hb]
    · rw [gcdLoopAux, if_neg hb, ih b (a % b) (by have := Nat.mod_lt a (Nat.pos_of_ne_zero hb); omega)]
      rw [Nat.gcd_comm b (a % b), ← Nat.gcd_rec b a, Nat.gcd_comm b a]

theorem gcdLoop_eq_gcd (a b : ℕ) : gcdLoop a b = Nat.gcd a b :=
  gcdLoopAux_eq_gcd (b + 1) a b (Nat.lt_succ_self b)

theorem jsRoundND_exact (b : ℕ) (a z : ℤ) (hb : 0 < b) (h : a = (b : ℤ) * z) :
    jsRoundND a b = z := by
  subst h
  unfold jsRoundND
  have hb' : (0 : ℤ) < (b : ℤ) := by exact_mod_cast hb
  have h1 : 2 * ((b : ℤ) * z) + (b : ℤ) = (b : ℤ) + z * (2 * (b : ℤ)) := by ring
  rw [h1, Int.add_mul_ediv_right _ _ (by omega : (2 * (b : ℤ)) ≠ 0),
    Int.ediv_eq_zero_of_lt (by omega) (by omega)]
  omega

theorem containsSub_cons (pat : List Char) (c : Char) (cs : List Char)
    (h : containsSub pat cs = true) : containsSub pat (c :: cs) = true := by
  simp only [containsSub, Bool.or_eq_true]
  exact Or.inr h

theorem containsSub_drop (pat : List Char) :
    ∀ (n : ℕ) (l : List Char), containsSub pat (l.drop n) = true → containsSub pat l = true := by
  intro n
  induction n with
  | zero => intro l h; simpa using h
  | succ m ih =>
    intro l h
    cases l with
    | nil => simpa using h
    | cons c cs => exact containsSub_cons pat c cs (ih cs (by simpa using h))

theorem spanSearch_containsSub (attr : List Char) :
    ∀ (l : List Char) (prev : Char) (r : List Char × List Char × List Char),
      spanSearch attr prev l = some r → containsSub attr l = true := by
  intro l
  induction l with
  | nil => intro prev r h; simp [spanSearch] at h
  | cons c cs ih =>
    intro prev r h
    rw [spanSearch] at h
    by_cases hgt : c = '>'
    · rw [if_pos hgt] at h; exact absurd h (by simp)
    · rw [if_neg hgt] at h
      rcases hrec : spanSearch attr c cs with _ | rv
      · rw [hrec] at h
        by_cases hcond : (!isWordChar prev && startsWithL attr (c :: cs)) = true
        · have hsw : startsWithL attr (c :: cs) = true := (Bool.and_eq_true _ _ |>.mp hcond).2
          simp only [containsSub, Bool.or_eq_true]
          exact Or.inl hsw
        · rw [if_neg hcond] at h; exact absurd h (by simp)
      · rw [hrec] at h
        exact containsSub_cons attr c cs (ih c rv hrec)

theorem svgTryAt_containsSub (attr l : List Char) (r : List Char × List Char × List Char)
    (h : svgTryAt attr l = some r) : containsSub attr l = true := by
  rw [svgTryAt] at h
  by_cases hsw : startsWithL svgTag l = true
  · rw [if_pos hsw] at h
    rcases hdrop : l.drop 4 with _ | ⟨d, ds⟩
    · rw [hdrop] at h; exact absurd h (by simp)
    · rw [hdrop] at h
      dsimp only at h
      by_cases hword : (!isWordChar d) = true
      · rw [if_pos hword] at h
        rcases hspan : spanSearch attr 'g' (d :: ds) with _ | rv
        · rw [hspan] at h; exact absurd h (by simp)
        · have hsub : containsSub attr (d :: ds) = true :=
            spanSearch_containsSub attr (d :: ds) 'g' rv hspan
          exact containsSub_drop attr 4 l (by rw [hdrop]; exact hsub)
      · rw [if_neg hword] at h; exact absurd h (by simp)
  · rw [if_neg hsw] at h; exact absurd h (by simp)

theorem svgScan_containsSub (attr : List Char) :
    ∀ (l : List Char) (r : List Char × List Char × List Char),
      svgScan attr l = some r → containsSub attr l = true := by
  intro l
  induction l with
  | nil => intro r h; simp [svgScan] at h
  | cons c cs ih =>
    intro r h
    rw [svgScan] at h
    rcases htry : svgTryAt attr (c :: cs) with _ | rv
    · rw [htry] at h
      rcases hrec : svgScan attr cs with _ | rv'
      · rw [hrec] at h; exact absurd h (by simp)
      · exact containsSub_cons attr c cs (ih rv' hrec)
    · exact svgTryAt_containsSub attr (c :: cs) rv htry

theorem replaceAttr_of_not_contains (attr : List Char) (scale : Scale) (l : Markup)
    (h : containsSub attr l = false) : replaceAttr attr scale l = l := by
  rw [replaceAttr]
  rcases hscan : svgScan attr l with _ | r
  · rfl
  · exact absurd (svgScan_containsSub attr l r hscan) (by simp [h])

theorem scaleSvgDimensions_of_no_attrs (svg : Markup) (scale : Scale)
    (hw : containsSub widthAttr svg = false) (hh : containsSub heightAttr svg = false) :
    scaleSvgDimensions svg scale = svg := by
  rw [scaleSvgDimensions]
  by_cases h1 : scale.1 = scale.2
  · rw [if_pos h1]
  · rw [if_neg h1, replaceAttr_of_not_contains widthAttr scale svg hw,
      replaceAttr_of_not_contains heightAttr scale svg hh]

/-- Whether an audio-effect event is an addition. -/
def AEvent.isAdd : AEvent → Bool
  | .addTrack _ => true
  | .removeTrack _ => false

theorem all_isAdd_after_add :
    ∀ (removes : List AEvent) (adds : List AEvent) (l1 l2 : List AEvent) (a : AEvent),
      (∀ x ∈ removes, x.isAdd = false) → (∀ x ∈ adds, x.isAdd = true) → a.isAdd = true →
      removes ++ adds = l1 ++ a :: l2 → ∀ x ∈ l2, x.isAdd = true := by
  intro removes
  induction removes with
  | nil =>
    intro adds l1 l2 a _ hadds _ heq x hx
    have heq' : adds = l1 ++ a :: l2 := by simpa using heq
    exact hadds x (by rw [heq']; exact List.mem_append_right l1 (List.mem_cons_of_mem a hx))
  | cons rr rs ih =>
    intro adds l1 l2 a hrem hadds ha heq
    cases l1 with
    | nil =>
      simp only [List.cons_append, List.nil_append] at heq
      have : rr = a := (List.cons.injEq _ _ _ _ |>.mp heq).1
      rw [this] at hrem
      have := hrem a (List.mem_cons_self a rs)
      rw [ha] at this
      exact absurd this (by simp)
    | cons b l1' =>
      simp only [List.cons_append, List.cons.injEq] at heq
      exact ih adds l1' l2 a (fun x hx => hrem x (List.mem_cons_of_mem rr hx)) hadds ha heq.2

theorem foldl_audioEffect_last :
    ∀ (dests : List (Option (List ℕ))) (st : AudioState) (d : Option (List ℕ)),
      dests.getLast? = some d →
      (dests.foldl (audioEffect true true) st).audioTracks = d.getD [] := by
  intro dests
  induction dests with
  | nil => intro st d h; simp at h
  | cons x xs ih =>
    intro st d h
    cases xs with
    | nil =>
      simp only [List.getLast?_singleton, Option.some.injEq] at h
      subst h
      cases x <;> simp [List.foldl, audioEffect]
    | cons y ys =>
      rw [List.foldl_cons]
      exact ih (audioEffect true true st x) d (by rwa [← List.getLast?_cons_cons])

/-! ## §6 The claims -/

/-- Claim C9 counterexample: `clearFontCache` tests its key with JS
truthiness (`if (key)`), and the empty string is falsy — so
`clearFontCache('')` takes the clear-all branch.  Concretely: in a cache
holding only the entry `"roboto"`, the key `""` is absent, yet clearing it
erases the `"roboto"` entry — refuting both "clearFontCache(k) removes only
entry k" and "clearing a missing key is a no-op" at `k = ""`. -/
theorem clearFontCache_empty_key_cex :
    getCachedFonts (setCachedFonts emptyFontCache "roboto" ⟨"Roboto", 1, 400, "normal"⟩) ""
      = none ∧
    getCachedFonts (setCachedFonts emptyFontCache "roboto" ⟨"Roboto", 1, 400, "normal"⟩) "roboto"
      = some ⟨"Roboto", 1, 400, "normal"⟩ ∧
    getCachedFonts
      (clearFontCache (setCachedFonts emptyFontCache "roboto" ⟨"Roboto", 1, 400, "normal"⟩)
        (some "")) "roboto" = none := by
  refine ⟨by decide, by decide, by decide⟩

/-- Claim C9 as amended: a never-set key reads as the absent sentinel
`null` (and reading is total, so it never throws); `set` then `get` returns
the identical value; a second `set` on the same key wins; distinct keys do
not interfere; `clearFontCache k` with a non-empty key removes exactly
entry `k`, and clearing a missing non-empty key or an already-empty cache
succeeds as a no-op; `clearFontCache` with no key empties the cache — and,
because the source tests the key with JS truthiness, so does
`clearFontCache ""`: the falsy empty-string key clears every entry. -/
theorem fontCache_contract :
    (∀ k, getCachedFonts emptyFontCache k = none) ∧
    (∀ c k f, getCachedFonts (setCachedFonts c k f) k = some f) ∧
    (∀ c k f1 f2, getCachedFonts (setCachedFonts (setCachedFonts c k f1) k f2) k = some f2) ∧
    (∀ c k1 k2 f1 f2, k1 ≠ k2 →
      getCachedFonts (setCachedFonts (setCachedFonts c k1 f1) k2 f2) k1 = some f1 ∧
      getCachedFonts (setCachedFonts (setCachedFonts c k1 f1) k2 f2) k2 = some f2) ∧
    (∀ c k, k ≠ "" → getCachedFonts (clearFontCache c (some k)) k = none) ∧
    (∀ c k k', k ≠ "" → k' ≠ k →
      getCachedFonts (clearFontCache c (some k)) k' = getCachedFonts c k') ∧
    (∀ c k, getCachedFonts (clearFontCache c none) k = none) ∧
    (∀ c k, getCachedFonts (clearFontCache c (some "")) k = none) ∧
    (∀ c k, k ≠ "" → getCachedFonts c k = none → clearFontCache c (some k) = c) ∧
    clearFontCache emptyFontCache none = emptyFontCache := by
  refine ⟨?_, ?_, ?_, ?_, ?_, ?_, ?_, ?_, ?_, ?_⟩
  · intro k; rfl
  · intro c k f; simp [getCachedFonts, setCachedFonts]
  · intro c k f1 f2; simp [getCachedFonts, setCachedFonts]
  · intro c k1 k2 f1 f2 hne
    constructor
    · simp [getCachedFonts, setCachedFonts, hne]
    · simp [getCachedFonts, setCachedFonts]
  · intro c k hk; simp [getCachedFonts, clearFontCache, hk]
  · intro c k k' hk h; simp [getCachedFonts, clearFontCache, hk, h]
  · intro c k; rfl
  · intro c k; simp [getCachedFonts, clearFontCache]
  · intro c k hk h
    funext k'
    by_cases hk' : k' = k
    · subst hk'
      simp only [clearFontCache, if_neg hk, if_pos rfl]
      exact (h : c k' = none).symm
    · simp [clearFontCache, hk, hk']
  · rfl

/-- Witness for C9 (amended): deleting the non-empty key `"roboto"` removes
that entry and leaves the independent entry `"inter"` untouched. -/
theorem fontCache_contract_witness :
    ("roboto" : String) ≠ "" ∧ ("inter" : String) ≠ "roboto" ∧
    getCachedFonts
      (clearFontCache
        (setCachedFonts (setCachedFonts emptyFontCache "roboto" ⟨"Roboto", 1, 400, "normal"⟩)
          "inter" ⟨"Inter", 2, 700, "normal"⟩) (some "roboto")) "roboto" = none ∧
    getCachedFonts
      (clearFontCache
        (setCachedFonts (setCachedFonts emptyFontCache "roboto" ⟨"Roboto", 1, 400, "normal"⟩)
          "inter" ⟨"Inter", 2, 700, "normal"⟩) (some "roboto")) "inter"
      = getCachedFonts
          (setCachedFonts (setCachedFonts emptyFontCache "roboto" ⟨"Roboto", 1, 400, "normal"⟩)
            "inter" ⟨"Inter", 2, 700, "normal"⟩) "inter" :=
  ⟨by decide, by decide,
    fontCache_contract.2.2.2.2.1
      (setCachedFonts (setCachedFonts emptyFontCache "roboto" ⟨"Roboto", 1, 400, "normal"⟩)
        "inter" ⟨"Inter", 2, 700, "normal"⟩) "roboto" (by decide),
    fontCache_contract.2.2.2.2.2.1
      (setCachedFonts (setCachedFonts emptyFontCache "roboto" ⟨"Roboto", 1, 400, "normal"⟩)
        "inter" ⟨"Inter", 2, 700, "normal"⟩) "roboto" "inter" (by decide) (by decide)⟩

/-- Claim C8: `svgToImage` allocates exactly one temporary object URL for
the markup blob, and revokes that very URL on both execution paths; on a
successful decode the decoded image (bound to that URL) is returned, on a
decode failure the error propagates to the caller — after the revoke. -/
theorem svgToImage_resource_release :
    ∀ (u : ℕ) (res : Except String Unit),
      ((svgToImage u res).1.filter fun e =>
        match e with | .createURL _ => true | _ => false) = [.createURL u] ∧
      .revokeURL u ∈ (svgToImage u res).1 ∧
      (res = .ok () → (svgToImage u res).2 = .ok u) ∧
      (∀ e, res = .error e → (svgToImage u res).2 = .error e) := by
  intro u res
  cases res with
  | ok v =>
    cases v
    refine ⟨by simp [svgToImage, List.filter], by simp [svgToImage], fun _ => rfl, ?_⟩
    intro e he; exact absurd he (by simp)
  | error e =>
    refine ⟨by simp [svgToImage, List.filter], by simp [svgToImage], ?_, ?_⟩
    · intro he; exact absurd he (by simp)
    · intro e' he'
      simp only [Except.error.injEq] at he'
      subst he'
      rfl

/-- Witness for C8 on the failure path at a concrete URL and error. -/
theorem svgToImage_resource_release_witness :
    ((Except.error "decode failed" : Except String Unit) = .error "decode failed") ∧
    (svgToImage 7 (.error "decode failed")).2 = .error "decode failed" :=
  ⟨rfl, (svgToImage_resource_release 7 (.error "decode failed")).2.2.2 "decode failed" rfl⟩

/-- Claim C2: when `isSupported` holds and both internal elements are
constructed, `enter()` issues the relay element's `play()` and the
platform's `requestPictureInPicture()` in the invocation's own synchronous
turn — the trace is exactly the two platform calls, in that order, with no
suspension point anywhere in it. -/
theorem enter_gesture_synchronous :
    ∀ env : EnterEnv, env.isSupported = true → env.videoInit = true → env.canvasInit = true →
      (enter env).trace = [.playCall, .pipRequestCall] ∧
      .awaitPoint ∉ (enter env).trace := by
  rintro ⟨s, v, c, pr, pp⟩ hs hv hc
  dsimp only at hs hv hc
  subst hs; subst hv; subst hc
  cases pr <;> cases pp <;> simp [enter]

/-- Witness for C2 at a concrete environment. -/
theorem enter_gesture_synchronous_witness :
    (EnterEnv.mk true true true (.ok ()) (.ok ())).isSupported = true ∧
    (enter ⟨true, true, true, .ok (), .ok ()⟩).trace = [.playCall, .pipRequestCall] :=
  ⟨rfl, (enter_gesture_synchronous ⟨true, true, true, .ok (), .ok ()⟩ rfl rfl rfl).1⟩

/-- Claim C4: `enter()` with `isSupported = false` fails with
`UnsupportedError` and issues no platform call at all (empty trace: neither
`play` nor the PiP request); with the platform supported but the video or
canvas element not yet constructed it fails with `InitError`, likewise with
an empty trace. -/
theorem enter_preconditions :
    ∀ env : EnterEnv,
      (env.isSupported = false →
        (enter env).returned = .error .unsupported ∧ (enter env).trace = []) ∧
      (env.isSupported = true → ¬(env.videoInit = true ∧ env.canvasInit = true) →
        (enter env).returned = .error .initError ∧ (enter env).trace = []) := by
  rintro ⟨s, v, c, pr, pp⟩
  constructor
  · intro h; dsimp only at h; subst h; simp [enter]
  · intro hs hnc
    dsimp only at hs hnc
    subst hs
    have hvc : (v && c) = false := by
      cases v <;> cases c <;> simp_all
    simp [enter, hvc]

/-- Witness for C4 at concrete environments (unsupported, and missing
canvas). -/
theorem enter_preconditions_witness :
    (enter ⟨false, true, true, .ok (), .ok ()⟩).returned = .error .unsupported ∧
    (enter ⟨true, true, false, .ok (), .ok ()⟩).returned = .error .initError ∧
    (enter ⟨true, true, false, .ok (), .ok ()⟩).trace = [] :=
  ⟨((enter_preconditions ⟨false, true, true, .ok (), .ok ()⟩).1 rfl).1,
    ((enter_preconditions ⟨true, true, false, .ok (), .ok ()⟩).2 rfl (by simp)).1,
    ((enter_preconditions ⟨true, true, false, .ok (), .ok ()⟩).2 rfl (by simp)).2⟩

/-- Claim C3 counterexample: at a concrete platform refusal of the PiP
request, the promise `enter()` returns to its caller settles successfully —
the rejection lives only on the detached `.catch` chain (an unhandled
rejection), so the immediate caller of `enter()` does not observe the
failure, contrary to the claim. -/
theorem enter_rejection_not_observed_cex :
    (enter ⟨true, true, true, .ok (), .error "NotAllowedError"⟩).returned = .ok () ∧
    (enter ⟨true, true, true, .ok (), .error "NotAllowedError"⟩).detachedRejections
      = ["NotAllowedError"] :=
  ⟨rfl, rfl⟩

/-- Claim C3 as amended: a platform refusal of `exit()`'s transition rejects
the promise `exit()` returned, so its immediate caller observes it; a
platform refusal of `enter()`'s PiP request does **not** reject `enter()`'s
own returned promise — the error is logged and rethrown only inside a
detached promise chain, invisible to `enter()`'s caller. -/
theorem platform_failure_surfacing :
    (∀ (v : Option VideoSt) (e : String), (exitPiP v true (.error e)).1 = .error e) ∧
    (∀ (env : EnterEnv) (e : String),
      env.isSupported = true → env.videoInit = true → env.canvasInit = true →
      env.pipResult = .error e →
      (enter env).returned = .ok () ∧
      e ∈ (enter env).detachedRejections ∧
      ("Failed to enter PiP: " ++ e) ∈ (enter env).logged) := by
  constructor
  · intro v e; simp [exitPiP]
  · rintro ⟨s, vi, c, pr, pp⟩ e hs hv hc hp
    dsimp only at hs hv hc hp
    subst hs; subst hv; subst hc; subst hp
    cases pr <;> simp [enter]

/-- Witness for C3 (amended) at a concrete refused PiP request. -/
theorem platform_failure_surfacing_witness :
    (EnterEnv.mk true true true (.ok ()) (.error "denied")).pipResult = .error "denied" ∧
    (enter ⟨true, true, true, .ok (), .error "denied"⟩).returned = .ok () ∧
    "denied" ∈ (enter ⟨true, true, true, .ok (), .error "denied"⟩).detachedRejections :=
  ⟨rfl,
    (platform_failure_surfacing.2 ⟨true, true, true, .ok (), .error "denied"⟩ "denied"
      rfl rfl rfl rfl).1,
    (platform_failure_surfacing.2 ⟨true, true, true, .ok (), .error "denied"⟩ "denied"
      rfl rfl rfl rfl).2.1⟩

/-- Claim C10 counterexample: with a PiP window shown and the platform
refusing the exit transition, `exit()` rejects (its promise settles with the
platform error) and the relay element is left untouched — not paused, not
reset — refuting the claim that `exit()` resolves without rejecting in every
session state. -/
theorem exit_unconditional_safety_cex :
    (exitPiP (some ⟨false, 5⟩) true (.error "InvalidStateError")).1
      = .error "InvalidStateError" ∧
    (exitPiP (some ⟨false, 5⟩) true (.error "InvalidStateError")).2.1 = some ⟨false, 5⟩ :=
  ⟨rfl, rfl⟩

/-- Claim C10 as amended: when no PiP window is shown, `exit()` issues no
platform exit call and resolves — a pure no-op if the relay element is also
absent, and otherwise it leaves the element paused at position 0; with a
PiP window shown it resolves (leaving the element paused at 0) whenever the
platform exit succeeds; but when the platform exit call fails, `exit()`
rejects with that error and the pause/reset is skipped. -/
theorem exit_behaviour :
    (∀ (v : Option VideoSt) (res : Except String Unit),
      (exitPiP v false res).1 = .ok () ∧ (exitPiP v false res).2.2 = []) ∧
    (∀ res : Except String Unit, exitPiP none false res = (.ok (), none, [])) ∧
    (∀ (v : VideoSt) (res : Except String Unit),
      (exitPiP (some v) false res).2.1 = some ⟨true, 0⟩) ∧
    (∀ v : VideoSt,
      (exitPiP (some v) true (.ok ())).1 = .ok () ∧
      (exitPiP (some v) true (.ok ())).2.1 = some ⟨true, 0⟩ ∧
      (exitPiP (some v) true (.ok ())).2.2 = [.exitPipCall]) ∧
    (∀ (v : Option VideoSt) (e : String),
      (exitPiP v true (.error e)).1 = .error e ∧ (exitPiP v true (.error e)).2.1 = v) := by
  refine ⟨?_, ?_, ?_, ?_, ?_⟩
  · intro v res; exact ⟨rfl, rfl⟩
  · intro res; rfl
  · intro v res; rfl
  · intro v; exact ⟨rfl, rfl, rfl⟩
  · intro v e; exact ⟨rfl, rfl⟩

/-- Claim C5: on every run of the audio-destination effect (stream and relay
element present), the relay element ends unmuted at volume 1; the capture
stream's audio tracks afterwards are exactly the new destination's tracks —
never more than the destination's own count, and none when no destination is
given; in the effect's track operations every removal precedes every
addition; and over any sequence of rapid destination swaps the final track
list is exactly the last destination's — tracks never accumulate. -/
theorem audioEffect_replaces_tracks :
    (∀ (st : AudioState) (dest : Option (List ℕ)),
      (audioEffect true true st dest).muted = false ∧
      (audioEffect true true st dest).volume = 1 ∧
      (audioEffect true true st dest).audioTracks = dest.getD [] ∧
      (audioEffect true true st dest).audioTracks.length ≤ (dest.getD []).length ∧
      (dest = none → (audioEffect true true st dest).audioTracks = [])) ∧
    (∀ (st : AudioState) (dest : Option (List ℕ)) (l1 l2 : List AEvent) (t : ℕ),
      audioEffectEvents true st dest = l1 ++ .addTrack t :: l2 →
      ∀ t', .removeTrack t' ∉ l2) ∧
    (∀ (st : AudioState) (dests : List (Option (List ℕ))) (d : Option (List ℕ)),
      dests.getLast? = some d →
      (dests.foldl (audioEffect true true) st).audioTracks = d.getD []) := by
  refine ⟨?_, ?_, ?_⟩
  · intro st dest
    cases dest <;> simp [audioEffect]
  · intro st dest l1 l2 t heq t' hmem
    have heq' : st.audioTracks.map AEvent.removeTrack ++ (dest.getD []).map AEvent.addTrack
        = l1 ++ .addTrack t :: l2 := by
      simpa [audioEffectEvents] using heq
    have hall := all_isAdd_after_add (st.audioTracks.map AEvent.removeTrack)
      ((dest.getD []).map AEvent.addTrack) l1 l2 (.addTrack t)
      (by intro x hx; obtain ⟨a, -, rfl⟩ := List.mem_map.mp hx; rfl)
      (by intro x hx; obtain ⟨a, -, rfl⟩ := List.mem_map.mp hx; rfl)
      rfl heq'
    have := hall (.removeTrack t') hmem
    simp [AEvent.isAdd] at this
  · intro st dests d h
    exact foldl_audioEffect_last dests st d h

/-- Witness for C5: a concrete rapid swap sequence ending on a one-track
destination, starting from a stream carrying two stale tracks. -/
theorem audioEffect_replaces_tracks_witness :
    ([some [1, 2], none, some [5]] : List (Option (List ℕ))).getLast? = some (some [5]) ∧
    (([some [1, 2], none, some [5]] : List (Option (List ℕ))).foldl
      (audioEffect true true) ⟨true, 0, [9, 10]⟩).audioTracks = [5] :=
  ⟨by decide,
    audioEffect_replaces_tracks.2.2 ⟨true, 0, [9, 10]⟩ [some [1, 2], none, some [5]]
      (some [5]) (by decide)⟩

/-- Claim C1 (evidence of the code bug): the render effect's `cancelled`
flag is consulted only in the synchronous part of `render()` — before the
first `await` — and never re-checked when the async chain resumes.  Running
the embedded effect machine on the schedule where cycle 0 is superseded
while awaiting font resolution (its flag set by the cleanup), cycle 1 then
paints, and cycle 0's chain completes last, shows the stale cycle repaints
the canvas: the paint history is `[1, 0]` and the final surface content is
cycle 0's output, not the newest cycle's — the superseded result is not
discarded. -/
theorem staleRender_clobbers_surface :
    (runRender staleSchedule).nextId = 2 ∧
    (runRender staleSchedule).paints = [1, 0] ∧
    (runRender staleSchedule).surface = some 0 ∧
    ((runRender staleSchedule).cycles.map fun c => (c.id, c.cancelled, c.phase))
      = [(0, true, .painted), (1, false, .painted)] := by
  decide

/-- Claim C7: at device pixel ratio 1 `renderToCanvas` hands the generated
markup to decoding unchanged and sets the canvas pixel size to the logical
dimensions; at ratio 2 it sets the canvas pixel size to `round(logical * 2)`
while still invoking the rasterizer at the unscaled logical dimensions, and
only the markup's outer width/height attributes are rescaled, its `viewBox`
untouched (shown on a representative rasterizer output); and rescaling
markup without explicit width/height attributes returns it unchanged,
without failing. -/
theorem renderToCanvas_dpr_contract :
    (∀ (satoriFn : ℕ → ℕ → Markup) (w h : ℕ),
      renderToCanvas satoriFn w h (1, 1) = ⟨(w : ℤ), (h : ℤ), w, h, satoriFn w h⟩) ∧
    (∀ (satoriFn : ℕ → ℕ → Markup) (w h : ℕ),
      (renderToCanvas satoriFn w h (2, 1)).canvasWidth = ((w * 2 : ℕ) : ℤ) ∧
      (renderToCanvas satoriFn w h (2, 1)).canvasHeight = ((h * 2 : ℕ) : ℤ) ∧
      (renderToCanvas satoriFn w h (2, 1)).satoriWidth = w ∧
      (renderToCanvas satoriFn w h (2, 1)).satoriHeight = h) ∧
    (renderToCanvas
        (fun _ _ =>
          "<svg width=\"100\" height=\"50\" viewBox=\"0 0 100 50\" fill=\"none\"><text>hi</text></svg>".data)
        100 50 (2, 1)).decodedMarkup
      = "<svg width=\"200\" height=\"100\" viewBox=\"0 0 100 50\" fill=\"none\"><text>hi</text></svg>".data ∧
    (∀ (svg : Markup) (s : Scale),
      containsSub widthAttr svg = false → containsSub heightAttr svg = false →
      scaleSvgDimensions svg s = svg) := by
  have hr1 : ∀ a : ℤ, jsRoundND a 1 = a := by
    intro a; unfold jsRoundND; omega
  refine ⟨?_, ?_, by decide, ?_⟩
  · intro satoriFn w h
    simp [renderToCanvas, scaleSvgDimensions, hr1]
  · intro satoriFn w h
    refine ⟨?_, ?_, rfl, rfl⟩ <;> simp [renderToCanvas, hr1]
  · intro svg s hw hh
    exact scaleSvgDimensions_of_no_attrs svg s hw hh

/-- Witness for C7: markup with a `viewBox` but no width/height attributes
passes through rescaling unchanged. -/
theorem renderToCanvas_dpr_contract_witness :
    containsSub widthAttr "<svg viewBox=\"0 0 8 6\"><rect fill=\"red\"/></svg>".data = false ∧
    containsSub heightAttr "<svg viewBox=\"0 0 8 6\"><rect fill=\"red\"/></svg>".data = false ∧
    scaleSvgDimensions "<svg viewBox=\"0 0 8 6\"><rect fill=\"red\"/></svg>".data (2, 1)
      = "<svg viewBox=\"0 0 8 6\"><rect fill=\"red\"/></svg>".data :=
  ⟨by decide, by decide,
    renderToCanvas_dpr_contract.2.2.2
      "<svg viewBox=\"0 0 8 6\"><rect fill=\"red\"/></svg>".data (2, 1)
      (by decide) (by decide)⟩

/-- Claim C6: `computeMinimalVideoSize` returns `(1, 1)` whenever either
input is non-finite or non-positive; on finite positive inputs (any exact
rational `num/den` whose declared decimal-place count makes it integral
when scaled — true of every decimal a JS engine prints) it returns a
positive integer pair in lowest terms whose ratio equals the input ratio;
and it matches the six specified input/output pairs (`1.5` is `3/2`, `6.4`
and `4.8` are `64/10` and `48/10`).  The embedding is a pure function, so
determinism and freedom from side effects hold by construction. -/
theorem computeMinimalVideoSize_contract :
    (∀ w h : JSNum,
      (!jsIsFinite w || !jsIsFinite h || jsLe0 w || jsLe0 h) = true →
      computeMinimalVideoSize w h = (1, 1)) ∧
    (∀ (wn hn : ℤ) (wd hd : ℕ),
      0 < wn → 0 < wd → 0 < hn → 0 < hd →
      (wd : ℤ) ∣ wn * 10 ^ decimalPlacesND wn wd →
      (hd : ℤ) ∣ hn * 10 ^ decimalPlacesND hn hd →
      ∃ r1 r2 : ℤ, computeMinimalVideoSize (.fin wn wd) (.fin hn hd) = (r1, r2) ∧
        0 < r1 ∧ 0 < r2 ∧ Nat.gcd r1.natAbs r2.natAbs = 1 ∧
        (r1 : ℚ) * ((hn : ℚ) / (hd : ℚ)) = (r2 : ℚ) * ((wn : ℚ) / (wd : ℚ))) ∧
    computeMinimalVideoSize (.fin 640 1) (.fin 480 1) = (4, 3) ∧
    computeMinimalVideoSize (.fin 1920 1) (.fin 1080 1) = (16, 9) ∧
    computeMinimalVideoSize (.fin 500 1) (.fin 500 1) = (1, 1) ∧
    computeMinimalVideoSize (.fin 7 1) (.fin 13 1) = (7, 13) ∧
    computeMinimalVideoSize (.fin 3 2) (.fin 1 1) = (3, 2) ∧
    computeMinimalVideoSize (.fin 64 10) (.fin 48 10) = (4, 3) := by
  refine ⟨?_, ?_, by decide, by decide, by decide, by decide, by decide, by decide⟩
  · intro w h hcond
    simp [computeMinimalVideoSize, hcond]
  · intro wn hn wd hd hwn hwd hhn hhd hw hh
    set dpw := decimalPlacesND wn wd with hdpw
    set dph := decimalPlacesND hn hd with hdph
    set M : ℕ := 10 ^ max dpw dph with hM
    have hMposN : 0 < M := by rw [hM]; positivity
    have hMpos : (0 : ℤ) < (M : ℤ) := by exact_mod_cast hMposN
    have hwd' : (0 : ℤ) < (wd : ℤ) := by exact_mod_cast hwd
    have hhd' : (0 : ℤ) < (hd : ℤ) := by exact_mod_cast hhd
    have hwdM : (wd : ℤ) ∣ wn * (M : ℤ) := by
      have hsplit : (M : ℤ) = 10 ^ dpw * 10 ^ (max dpw dph - dpw) := by
        rw [hM]; push_cast; rw [← pow_add]; congr 1; omega
      rw [hsplit, ← mul_assoc]
      exact Dvd.dvd.mul_right hw _
    have hhdM : (hd : ℤ) ∣ hn * (M : ℤ) := by
      have hsplit : (M : ℤ) = 10 ^ dph * 10 ^ (max dpw dph - dph) := by
        rw [hM]; push_cast; rw [← pow_add]; congr 1; omega
      rw [hsplit, ← mul_assoc]
      exact Dvd.dvd.mul_right hh _
    obtain ⟨zw, hzw⟩ := hwdM
    obtain ⟨zh, hzh⟩ := hhdM
    have hzwpos : 0 < zw := by
      have h1 : (0 : ℤ) < wn * (M : ℤ) := mul_pos hwn hMpos
      rw [hzw] at h1
      rcases mul_pos_iff.mp h1 with ⟨_, hz⟩ | ⟨hneg, _⟩
      · exact hz
      · exact absurd hneg (by omega)
    have hzhpos : 0 < zh := by
      have h1 : (0 : ℤ) < hn * (M : ℤ) := mul_pos hhn hMpos
      rw [hzh] at h1
      rcases mul_pos_iff.mp h1 with ⟨_, hz⟩ | ⟨hneg, _⟩
      · exact hz
      · exact absurd hneg (by omega)
    have hrw : jsRoundND (wn * (M : ℤ)) wd = zw := jsRoundND_exact wd _ zw hwd hzw
    have hrh : jsRoundND (hn * (M : ℤ)) hd = zh := jsRoundND_exact hd _ zh hhd hzh
    set g := Nat.gcd zw.natAbs zh.natAbs with hg
    have hgpos : 0 < g := Nat.gcd_pos_of_pos_left _ (Int.natAbs_pos.mpr hzwpos.ne')
    have hgdvdw : (g : ℤ) ∣ zw :=
      Int.dvd_natAbs.mp (Int.natCast_dvd_natCast.mpr (Nat.gcd_dvd_left _ _))
    have hgdvdh : (g : ℤ) ∣ zh :=
      Int.dvd_natAbs.mp (Int.natCast_dvd_natCast.mpr (Nat.gcd_dvd_right _ _))
    obtain ⟨q1, hq1⟩ := hgdvdw
    obtain ⟨q2, hq2⟩ := hgdvdh
    have hgz : (0 : ℤ) < (g : ℤ) := by exact_mod_cast hgpos
    have hq1pos : 0 < q1 := by
      rw [hq1] at hzwpos
      rcases mul_pos_iff.mp hzwpos with ⟨_, hz⟩ | ⟨hneg, _⟩
      · exact hz
      · exact absurd hneg (by omega)
    have hq2pos : 0 < q2 := by
      rw [hq2] at hzhpos
      rcases mul_pos_iff.mp hzhpos with ⟨_, hz⟩ | ⟨hneg, _⟩
      · exact hz
      · exact absurd hneg (by omega)
    have hr1 : jsRoundND (wn * (M : ℤ)) (wd * g) = q1 := by
      apply jsRoundND_exact (wd * g) _ q1 (Nat.mul_pos hwd hgpos)
      push_cast
      rw [hzw, hq1]; ring
    have hr2 : jsRoundND (hn * (M : ℤ)) (hd * g) = q2 := by
      apply jsRoundND_exact (hd * g) _ q2 (Nat.mul_pos hhd hgpos)
      push_cast
      rw [hzh, hq2]; ring
    have hguard : computeMinimalVideoSize (.fin wn wd) (.fin hn hd) = cmvsCore wn wd hn hd := by
      have h1 : jsLe0 (.fin wn wd) = false := by
        simp only [jsLe0, decide_eq_false_iff_not]; omega
      have h2 : jsLe0 (.fin hn hd) = false := by
        simp only [jsLe0, decide_eq_false_iff_not]; omega
      simp [computeMinimalVideoSize, jsIsFinite, h1, h2]
    have hcore : cmvsCore wn wd hn hd = (q1, q2) := by
      simp only [cmvsCore]
      rw [← hdpw, ← hdph, ← hM, hrw, hrh, gcdLoop_eq_gcd, ← hg, if_neg hgpos.ne', hr1, hr2]
    refine ⟨q1, q2, by rw [hguard, hcore], hq1pos, hq2pos, ?_, ?_⟩
    · have hna1 : zw.natAbs / g = q1.natAbs := by
        have habs : zw.natAbs = g * q1.natAbs := by
          rw [hq1, Int.natAbs_mul, Int.natAbs_ofNat]
        exact Nat.div_eq_of_eq_mul_left hgpos (by rw [habs]; ring)
      have hna2 : zh.natAbs / g = q2.natAbs := by
        have habs : zh.natAbs = g * q2.natAbs := by
          rw [hq2, Int.natAbs_mul, Int.natAbs_ofNat]
        exact Nat.div_eq_of_eq_mul_left hgpos (by rw [habs]; ring)
      rw [← hna1, ← hna2, hg]
      exact Nat.coprime_div_gcd_div_gcd (hg ▸ hgpos)
    · have e1 : wn * (M : ℤ) = (wd : ℤ) * ((g : ℤ) * q1) := by rw [hzw, hq1]
      have e2 : hn * (M : ℤ) = (hd : ℤ) * ((g : ℤ) * q2) := by rw [hzh, hq2]
      have keyg : (g : ℤ) * (q1 * hn * (wd : ℤ)) = (g : ℤ) * (q2 * wn * (hd : ℤ)) := by
        linear_combination (-hn) * e1 + wn * e2
      have key : q1 * hn * (wd : ℤ) = q2 * wn * (hd : ℤ) :=
        mul_left_cancel₀ (by exact_mod_cast hgpos.ne') keyg
      have keyQ : (q1 : ℚ) * (hn : ℚ) * (wd : ℚ) = (q2 : ℚ) * (wn : ℚ) * (hd : ℚ) := by
        exact_mod_cast key
      have hdQ : (hd : ℚ) ≠ 0 := Nat.cast_ne_zero.mpr hhd.ne'
      have hwdQ : (wd : ℚ) ≠ 0 := Nat.cast_ne_zero.mpr hwd.ne'
      field_simp
      linear_combination keyQ

/-- Witness for C6 at the concrete input `1.5 × 1.0` (`3/2` and `1/1`). -/
theorem computeMinimalVideoSize_contract_witness :
    (0 : ℤ) < 3 ∧ ((2 : ℕ) : ℤ) ∣ 3 * 10 ^ decimalPlacesND 3 2 ∧
    (∃ r1 r2 : ℤ, computeMinimalVideoSize (.fin 3 2) (.fin 1 1) = (r1, r2) ∧
      0 < r1 ∧ 0 < r2 ∧ Nat.gcd r1.natAbs r2.natAbs = 1 ∧
      (r1 : ℚ) * (((1 : ℤ) : ℚ) / ((1 : ℕ) : ℚ)) = (r2 : ℚ) * (((3 : ℤ) : ℚ) / ((2 : ℕ) : ℚ))) :=
  ⟨by decide, by decide,
    computeMinimalVideoSize_contract.2.1 3 1 2 1 (by decide) (by decide) (by decide) (by decide)
      (by decide) (by decide)⟩

end UsePip
